import Mathlib

/-!
Verification of the market-data ingestion/caching engine.

This file shallowly embeds the cache-validity logic, cache read paths,
incremental-update planning, the historical backfill collector with its
progress tracking, the daily-price upsert store, and the RSI indicator
computation, and proves the spec's claims about them.

Conventions of the embedding:
* Calendar timestamps are pairs `(day, hour)` with `day : ℤ` a calendar day
  number and `hour : ℕ` the hour of day; `datetime.date()` comparisons become
  comparisons of the `day` field and `now - timedelta(days=1)` becomes
  `now.day - 1`.
* Machine floats are embedded as exact rationals `ℚ`; the IEEE special cases
  that the float pipeline produces (division by zero giving `+inf` or `NaN`)
  are made explicit where they occur (see `rsiAt`).
* Fallible calls return `Except String`; a Python exception crossing a
  function boundary is an `Except.error` value.
* External I/O (the HTTP provider, the JSON/SQLite files) is abstracted into
  explicit inputs: an oracle giving each API request's outcome, and explicit
  table/cache values threaded through the functions.
-/

namespace MarketSystem

/-! ## Schedule-aware cache validity (`cache_manager._is_cache_valid`)

The market cache is refreshed at the fixed hours `update_hours = [9, 21]`.
`is_cache_valid` is the pure core of `CacheManager._is_cache_valid`: it
receives the parsed `last_update` timestamp of the cache file and the current
time `now` (missing file / missing field / parse error all return `False`
before this logic runs and are not modelled here). -/

/-- A wall-clock instant, as a calendar day number and an hour of day. -/
structure Instant where
  day : ℤ
  hour : ℕ
deriving Repr, DecidableEq

/-- `self.update_hours = [9, 21]` — scheduled market-cache refresh hours. -/
def update_hours : List ℕ := [9, 21]

/-- `max(self.update_hours)`. -/
def maxUpdateHour : ℕ := update_hours.foldl max 0

/-- Core of `CacheManager._is_cache_valid` (cache_manager.py lines 84-119):
line-by-line translation of the timestamp logic.  The Python `for ... break`
searches become `List.find?`. -/
def is_cache_valid (lastUpdate now : Instant) : Bool :=
  -- line 88: `if last_update.date() != now.date(): return False`
  if lastUpdate.day ≠ now.day then false
  else
    -- lines 96-100: first scheduled hour strictly after the current hour
    match update_hours.find? (fun h => decide (now.hour < h)) with
    | none =>
      -- line 104: `return last_update_hour >= max(self.update_hours)`
      decide (maxUpdateHour ≤ lastUpdate.hour)
    | some _ =>
      -- lines 107-111: last scheduled hour already reached today
      match update_hours.reverse.find? (fun h => decide (h ≤ now.hour)) with
      | none =>
        -- lines 113-117: before the first slot, check yesterday's evening
        decide (lastUpdate.day = now.day - 1) && decide (maxUpdateHour ≤ lastUpdate.hour)
      | some lastPlanned =>
        -- line 119: `return last_update_hour >= last_planned_hour`
        decide (lastPlanned ≤ lastUpdate.hour)

/-! ## Cache read paths (`get_market_data`, `get_crypto_data`)

The cached payload is an opaque JSON blob, modelled as a list of entries;
Python truthiness of a loaded payload is nonemptiness.  `cached` is the
result of `_load_cache` / `_load_crypto_cache` (`none` = missing file or
load error).  `collector` is the outcome of the underlying collector call:
`.ok data` for a normal return, `.error e` for a raised exception. -/

abbrev Payload := List String

/-- Python truthiness of an optional loaded payload (`if cached_data:`). -/
def truthy (cached : Option Payload) : Bool :=
  match cached with
  | some d => !d.isEmpty
  | none => false

/-- `CacheManager.get_market_data` (cache_manager.py lines 159-181).
`cacheValid` is the result of `_is_cache_valid()`.  The collector call
`self.data_collector.collect_all_metrics()` is NOT wrapped in try/except,
so a raised exception propagates to the caller; on a normal return the
result is saved to the cache (a state effect not needed here) and returned. -/
def get_market_data (force_update cacheValid : Bool) (cached : Option Payload)
    (collector : Except String Payload) : Except String Payload :=
  if force_update = false ∧ cacheValid = true ∧ truthy cached = true then
    Except.ok (cached.getD [])
  else
    collector

/-- `CacheManager.get_crypto_data` (cache_manager.py lines 310-360).
The collector call is wrapped in try/except; both a falsy collector result
and a raised exception fall back to the cached payload when it is truthy,
and to `{}` (the empty payload) otherwise. -/
def get_crypto_data (force_update cacheValid : Bool) (cached : Option Payload)
    (collector : Except String Payload) : Except String Payload :=
  if force_update = false ∧ cacheValid = true ∧ truthy cached = true then
    Except.ok (cached.getD [])
  else
    match collector with
    | Except.ok d =>
      if d.isEmpty = false then Except.ok d
      else if truthy cached = true then Except.ok (cached.getD []) else Except.ok []
    | Except.error _ =>
      if truthy cached = true then Except.ok (cached.getD []) else Except.ok []

/-! ## Incremental Ethereum update (`crypto_historical_analyzer.get_ethereum_analysis`)

The incremental-update planning step (crypto_historical_analyzer.py lines
111-124): given the last stored date for ethereum (as a day number, `none`
when the table is empty) and today's date, decide whether to fetch and how
many days to request. -/

/-- Lines 111-124 of `get_ethereum_analysis`: `(need_update, days_to_fetch)`. -/
def eth_incremental_plan (lastDate : Option ℤ) (today : ℤ) : Bool × ℤ :=
  match lastDate with
  | none => (true, 365)
  | some d =>
    let gap := today - d
    if 1 ≤ gap then (true, min 90 (gap + 1)) else (false, 0)

end MarketSystem

namespace MarketSystem

/-! ## Theorems: cache claims -/

/-- C1: the spec says that when no scheduled hour has yet passed today,
cache validity falls back to accepting a last update made yesterday at or
after `max(update_hours) = 21`.  The code is a slip: the guard
`last_update.date() != now.date()` (line 88) already rejected every
timestamp not from today, so the fallback comparison with yesterday
(lines 113-117, whose own comment says it checks yesterday's evening slot)
is unreachable, and in the no-slot-passed-today regime the check returns
`false` for every timestamp whatsoever.  Concretely, a write yesterday at
22:00 queried today at 08:00 is reported invalid. -/
theorem cache_yesterday_fallback_is_dead_code :
    is_cache_valid ⟨0, 22⟩ ⟨1, 8⟩ = false ∧
    ∀ lastUpdate now : Instant, now.hour < 9 → is_cache_valid lastUpdate now = false := by
  constructor
  · decide
  · intro lu now h
    unfold is_cache_valid
    by_cases hday : lu.day = now.day
    · have hfind : update_hours.find? (fun h => decide (now.hour < h)) = some 9 := by
        simp [update_hours, List.find?, h]
      have h21 : decide (21 ≤ now.hour) = false := by simp; omega
      have h9 : decide (9 ≤ now.hour) = false := by simp; omega
      have hrev : update_hours.reverse = [21, 9] := rfl
      have hfind2 : update_hours.reverse.find? (fun h => decide (h ≤ now.hour)) = none := by
        rw [hrev]
        simp [List.find?, h21, h9]
      simp [hday, hfind, hfind2]
      intro hyd
      omega
    · simp [hday]

/-- C1 witness: the dead-branch fact applied at the concrete failing input. -/
theorem cache_yesterday_fallback_is_dead_code_witness :
    is_cache_valid ⟨0, 22⟩ ⟨1, 8⟩ = false :=
  cache_yesterday_fallback_is_dead_code.2 ⟨0, 22⟩ ⟨1, 8⟩ (by decide)

/-- C2 counterexample: the claim "cache reads never propagate an exception"
is false for `get_market_data`: with a nonempty cached payload available and
the collector raising, a forced read propagates the exception instead of
falling back to the stale payload. -/
theorem get_market_data_propagates_exception :
    get_market_data true true (some ["payload"]) (Except.error "network down")
      = Except.error "network down" ∧
    get_market_data true true (some ["payload"]) (Except.error "network down")
      ≠ Except.ok ["payload"] := by
  refine ⟨rfl, ?_⟩
  intro h
  exact Except.noConfusion h

/-- C2 (amended): `get_crypto_data` never propagates a collector exception or
failure — it returns the last-known cached payload when one is truthy and the
empty payload otherwise — while `get_market_data` propagates collector
exceptions to its caller whenever its cache short-circuit does not apply. -/
theorem cache_read_failure_behavior :
    (∀ (f v : Bool) (cached : Option Payload) (e : String),
      get_crypto_data f v cached (Except.error e)
        = Except.ok (if truthy cached = true then cached.getD [] else [])) ∧
    (∀ (f v : Bool) (cached : Option Payload),
      get_crypto_data f v cached (Except.ok [])
        = Except.ok (if truthy cached = true then cached.getD [] else [])) ∧
    (∀ (f v : Bool) (cached : Option Payload) (e : String),
      (f = true ∨ v = false ∨ truthy cached = false) →
      get_market_data f v cached (Except.error e) = Except.error e) := by
  refine ⟨?_, ?_, ?_⟩
  · intro f v cached e
    unfold get_crypto_data
    by_cases hc : f = false ∧ v = true ∧ truthy cached = true
    · simp [hc, hc.2.2]
    · by_cases ht : truthy cached = true <;> simp [hc, ht]
  · intro f v cached
    unfold get_crypto_data
    by_cases hc : f = false ∧ v = true ∧ truthy cached = true
    · simp [hc, hc.2.2]
    · by_cases ht : truthy cached = true <;> simp [hc, ht]
  · intro f v cached e h
    unfold get_market_data
    have hc : ¬(f = false ∧ v = true ∧ truthy cached = true) := by
      rcases h with h | h | h <;> simp [h]
    simp [hc]

/-- C2 witness: the amended behavior at concrete inputs. -/
theorem cache_read_failure_behavior_witness :
    get_market_data true true (some ["p"]) (Except.error "boom") = Except.error "boom" :=
  cache_read_failure_behavior.2.2 true true (some ["p"]) "boom" (Or.inl rfl)

/-- C3: for an already-backfilled series with last stored date `d` and
`gap = today - d ≥ 1`, the incremental update requests exactly
`min 90 (gap + 1)` days — never more than 90, so never a full re-backfill
(the full-history path requests 365 days only when no data is stored) —
and with `d = today - 3` it requests exactly 4 ≤ 4 days. -/
theorem eth_incremental_requests_min_cap (d today : ℤ) (h : 1 ≤ today - d) :
    eth_incremental_plan (some d) today = (true, min 90 (today - d + 1)) ∧
    (eth_incremental_plan (some d) today).2 ≤ 90 ∧
    (today - d = 3 → (eth_incremental_plan (some d) today).2 = 4) := by
  refine ⟨by simp [eth_incremental_plan, h], ?_, ?_⟩
  · simp [eth_incremental_plan, h]
  · intro h3
    simp [eth_incremental_plan, h, h3]

/-- C3 witness: last stored date three days ago fetches exactly 4 days. -/
theorem eth_incremental_requests_min_cap_witness :
    eth_incremental_plan (some 0) 3 = (true, min 90 4) ∧
    (eth_incremental_plan (some 0) 3).2 ≤ 90 ∧
    ((3 : ℤ) - 0 = 3 → (eth_incremental_plan (some 0) 3).2 = 4) :=
  eth_incremental_requests_min_cap 0 3 (by decide)

/-! ## RSI(14) (`crypto_history_collector._calculate_rsi` and the identical
inline computation in `historical_data_manager.calculate_technical_indicators`)

```
delta = prices.diff()
gain = (delta.where(delta > 0, 0)).rolling(window=period).mean()
loss = (-delta.where(delta < 0, 0)).rolling(window=period).mean()
rs = gain / loss
rsi = 100 - (100 / (1 + rs))
```

Row `i` of `prices.diff()` is `prices[i] - prices[i-1]` (`NaN` at row 0), and
the rolling mean at row `i` averages rows `i-13 .. i`, so the RSI is defined
(non-`NaN`) exactly for `14 ≤ i < len(prices)`.  The float special cases of
`gain / loss` at `loss == 0` are made explicit: `gain > 0` gives `rs = +inf`
hence `rsi = 100 - 100/(1 + inf) = 100`, while `gain == 0` gives `rs = NaN`
hence an undefined RSI, returned as `none`. -/

/-- `prices.diff()` at row `i` (meaningful for `1 ≤ i < prices.length`). -/
def priceDelta (prices : List ℚ) (i : ℕ) : ℚ :=
  prices.getD i 0 - prices.getD (i - 1) 0

/-- `delta.where(delta > 0, 0)` at row `i`: keep the delta where it is
positive, else 0. -/
def gainAt (prices : List ℚ) (i : ℕ) : ℚ :=
  if 0 < priceDelta prices i then priceDelta prices i else 0

/-- `-(delta.where(delta < 0, 0))` at row `i`: the negated delta where the
delta is negative, else 0. -/
def lossAt (prices : List ℚ) (i : ℕ) : ℚ :=
  if priceDelta prices i < 0 then -(priceDelta prices i) else 0

/-- 14-period rolling mean of gains at row `i` (rows `i-13 .. i`). -/
def avgGain (prices : List ℚ) (i : ℕ) : ℚ :=
  (∑ j in Finset.range 14, gainAt prices (i - j)) / 14

/-- 14-period rolling mean of losses at row `i` (rows `i-13 .. i`). -/
def avgLoss (prices : List ℚ) (i : ℕ) : ℚ :=
  (∑ j in Finset.range 14, lossAt prices (i - j)) / 14

/-- The RSI(14) value at row `i`, `none` where the pipeline yields `NaN`. -/
def rsiAt (prices : List ℚ) (i : ℕ) : Option ℚ :=
  if 14 ≤ i ∧ i < prices.length then
    if avgLoss prices i = 0 then (if avgGain prices i = 0 then none else some 100)
    else some (100 - 100 / (1 + avgGain prices i / avgLoss prices i))
  else none

/-! ## Daily-price upsert store (`database_manager.save_daily_data`)

The `daily_prices` table has `UNIQUE(coin_id, date)` (database_manager.py
lines 39-58); `save_daily_data` issues `INSERT OR REPLACE` per record
(lines 144-188), which deletes any existing row with the same key and
inserts the new row.  The table is modelled as a list of rows; surrogate
`id`/`created_at` columns are not part of the data model. -/

/-- One record of `_process_market_chart_data` / one row's data columns. -/
structure DailyRecord where
  date : ℤ
  open_ : ℚ
  high : ℚ
  low : ℚ
  close : ℚ
  volume : Option ℚ
  market_cap : Option ℚ
  circulating_supply : Option ℚ
  total_supply : Option ℚ
  fdv : Option ℚ
  price_change_24h : Option ℚ
  volume_change_24h : Option ℚ
deriving Repr, DecidableEq

/-- A stored row of `daily_prices`: the key column `coin_id` plus the data. -/
structure PriceRow where
  coin : String
  fields : DailyRecord
deriving Repr, DecidableEq

/-- Does a stored row match the key `(coin, date)`? -/
def rowKeyed (coin : String) (d : ℤ) (row : PriceRow) : Bool :=
  decide (row.coin = coin ∧ row.fields.date = d)

/-- `INSERT OR REPLACE INTO daily_prices ...` for one record: drop any row
with the same `(coin_id, date)` key and insert the new row. -/
def upsert_daily_row (coin : String) (r : DailyRecord) (t : List PriceRow) :
    List PriceRow :=
  (t.filter fun row => !rowKeyed coin r.date row) ++ [⟨coin, r⟩]

/-- `DatabaseManager.save_daily_data`: upserts each record in order and
returns `saved_count + updated_count`, which is the number of records
(`cursor.rowcount > 0` for every `INSERT OR REPLACE`). -/
def save_daily_data (coin : String) (data : List DailyRecord)
    (t : List PriceRow) : ℕ × List PriceRow :=
  (data.length, data.foldl (fun acc r => upsert_daily_row coin r acc) t)

/-! ## Historical backfill collector (`historical_data/historical_collector.py`)

`collect_bitcoin_data` (lines 339-462) orchestrates a paginated backfill.
The CoinGecko provider is abstracted as an oracle giving the outcome of the
`i`-th `market_chart` request (1-indexed, as `current_request` in the source);
a successful response's `_process_market_chart_data` output is carried
directly in the outcome.  Wall-clock sleeps are accumulated in milliseconds.
Progress checkpointing (`_save_progress`) writes the in-memory progress to
disk and is a no-op in this state model. -/

/-- `CollectionProgress.status` values. -/
inductive Status where
  | pending
  | in_progress
  | completed
  | error
deriving Repr, DecidableEq

/-- The `CollectionProgress` dataclass (historical_collector.py lines 30-50);
dates are calendar day numbers. -/
structure Progress where
  coin_id : String
  total_days : ℕ
  collected_days : ℕ
  start_date : ℤ
  end_date : ℤ
  current_date : ℤ
  status : Status
  errors : List String
  last_error : Option String
  collection_start : Option ℤ
  collection_end : Option ℤ
deriving Repr, DecidableEq

/-- `CollectionProgress.progress_percentage` (lines 45-50). -/
def Progress.progress_percentage (p : Progress) : ℚ :=
  if p.total_days = 0 then 0
  else ((p.collected_days : ℚ) / (p.total_days : ℚ)) * 100

/-- `HistoricalCollector.api_stats` counters. -/
structure ApiStats where
  total_requests : ℕ
  successful_requests : ℕ
  failed_requests : ℕ
  rate_limit_hits : ℕ
deriving Repr, DecidableEq

/-- Outcome of one `market_chart` request as `collect_bitcoin_data` sees it:
`_make_api_request` returns the response or `None` (after the stats/sleep
bookkeeping of lines 303-337); a response carrying a `prices` key is turned
by `_process_market_chart_data` into the page's daily records, carried here
in the `ok` outcome. -/
inductive PageOutcome where
  | ok (daily : List DailyRecord)
  | noPrices
  | rateLimited
  | apiError
deriving Repr, DecidableEq

/-- Outcome of the single `coin_info` metadata request. -/
inductive InfoOutcome where
  | ok
  | rateLimited
  | apiError
deriving Repr, DecidableEq

/-- The mutable state a collection run touches: the bitcoin progress entry,
the API counters, the `daily_prices` table, accumulated sleep, the `days`
parameters of the `market_chart` requests issued so far, the local
`total_collected` accumulator, and the number of metadata writes. -/
structure RunState where
  progress : Progress
  stats : ApiStats
  db : List PriceRow
  sleepMs : ℕ
  market_chart_days : List ℤ
  total_collected : ℕ
  metadata_writes : ℕ
deriving Repr, DecidableEq

/-- Line 427: `f"Ошибка получения данных для запроса {current_request}"`. -/
def fetch_error_msg (i : ℕ) : String :=
  "Ошибка получения данных для запроса " ++ toString i

/-- Line 425: `f"Нет данных для запроса {current_request}"`. -/
def no_data_msg (i : ℕ) : String :=
  "Нет данных для запроса " ++ toString i

/-- Line 458: `f"Собрано только {collected}/{total} дней"`. -/
def incomplete_msg (p : Progress) : String :=
  "Собрано только " ++ toString p.collected_days ++ "/" ++ toString p.total_days ++ " дней"

/-- One iteration of the `while current_request < requests_needed` loop
(lines 397-433) for request number `i`, including the `_make_api_request`
bookkeeping (inter-request delay, counters, rate-limit cooldown) and the
final `time.sleep(2)`. -/
def collect_page (oracle : ℕ → PageOutcome) (totalDaysNeeded : ℤ) (i : ℕ)
    (s : RunState) : RunState :=
  let daysForThisRequest : ℤ := min 365 (totalDaysNeeded - (s.total_collected : ℤ))
  let s₁ : RunState := { s with
    sleepMs := s.sleepMs + 100
    stats := { s.stats with total_requests := s.stats.total_requests + 1 }
    market_chart_days := s.market_chart_days ++ [daysForThisRequest] }
  let s₂ : RunState :=
    match oracle i with
    | PageOutcome.ok daily =>
      let s' := { s₁ with stats :=
        { s₁.stats with successful_requests := s₁.stats.successful_requests + 1 } }
      if daily.isEmpty then
        { s' with progress :=
          { s'.progress with errors := s'.progress.errors ++ [no_data_msg i] } }
      else
        { s' with
          db := (save_daily_data "bitcoin" daily s'.db).2
          total_collected := s'.total_collected + (save_daily_data "bitcoin" daily s'.db).1
          progress := { s'.progress with
            collected_days := s'.progress.collected_days + daily.length } }
    | PageOutcome.noPrices =>
      let s' := { s₁ with stats :=
        { s₁.stats with successful_requests := s₁.stats.successful_requests + 1 } }
      { s' with progress := { s'.progress with
          errors := s'.progress.errors ++ [fetch_error_msg i]
          last_error := some (fetch_error_msg i) } }
    | PageOutcome.rateLimited =>
      let s' := { s₁ with
        stats := { s₁.stats with
          failed_requests := s₁.stats.failed_requests + 1
          rate_limit_hits := s₁.stats.rate_limit_hits + 1 }
        sleepMs := s₁.sleepMs + 60000 }
      { s' with progress := { s'.progress with
          errors := s'.progress.errors ++ [fetch_error_msg i]
          last_error := some (fetch_error_msg i) } }
    | PageOutcome.apiError =>
      let s' := { s₁ with stats :=
        { s₁.stats with failed_requests := s₁.stats.failed_requests + 1 } }
      { s' with progress := { s'.progress with
          errors := s'.progress.errors ++ [fetch_error_msg i]
          last_error := some (fetch_error_msg i) } }
  { s₂ with sleepMs := s₂.sleepMs + 2000 }

/-- The request loop: `remaining` iterations starting at request number `i`. -/
def collect_pages (oracle : ℕ → PageOutcome) (totalDaysNeeded : ℤ) :
    ℕ → ℕ → RunState → RunState
  | 0, _, s => s
  | Nat.succ r, i, s =>
    collect_pages oracle totalDaysNeeded r (i + 1) (collect_page oracle totalDaysNeeded i s)

/-- Line 390: `requests_needed = (total_days_needed + 364) // 365`
(Python floor division). -/
def requests_needed (totalDaysNeeded : ℤ) : ℕ :=
  ((totalDaysNeeded + 364).fdiv 365).toNat

/-- The terminal completion check (lines 435-462): 95% of `total_days`
collected means `completed` (with `collection_end` stamped) and a `True`
return; otherwise `error` with a human-readable `last_error` and `False`. -/
def finalize_collection (s : RunState) (now : ℤ) : Bool × RunState :=
  if (s.progress.collected_days : ℚ) ≥ (s.progress.total_days : ℚ) * 0.95 then
    (true, { s with progress := { s.progress with
      status := Status.completed
      collection_end := some now } })
  else
    (false, { s with progress := { s.progress with
      status := Status.error
      last_error := some (incomplete_msg s.progress) } })

/-- `HistoricalCollector.collect_bitcoin_data` (lines 339-462), for a stored
progress entry `p` (the `'bitcoin' not in self.progress` initialization path
is outside this model's scope — all claims assume a stored entry).  Returns
the Python return value and the final state. -/
def collect_bitcoin_data (p : Progress) (stats : ApiStats) (db : List PriceRow)
    (coin_info : InfoOutcome) (oracle : ℕ → PageOutcome) (now : ℤ) :
    Bool × RunState :=
  if p.status = Status.completed then
    (true, ⟨p, stats, db, 0, [], 0, 0⟩)
  else
    let stats₁ := { stats with total_requests := stats.total_requests + 1 }
    let s₀ : RunState :=
      match coin_info with
      | InfoOutcome.ok =>
        { progress := p
          stats := { stats₁ with successful_requests := stats₁.successful_requests + 1 }
          db := db, sleepMs := 100, market_chart_days := []
          total_collected := 0, metadata_writes := 1 }
      | InfoOutcome.rateLimited =>
        { progress := p
          stats := { stats₁ with
            failed_requests := stats₁.failed_requests + 1
            rate_limit_hits := stats₁.rate_limit_hits + 1 }
          db := db, sleepMs := 100 + 60000, market_chart_days := []
          total_collected := 0, metadata_writes := 0 }
      | InfoOutcome.apiError =>
        { progress := p
          stats := { stats₁ with failed_requests := stats₁.failed_requests + 1 }
          db := db, sleepMs := 100, market_chart_days := []
          total_collected := 0, metadata_writes := 0 }
    let totalDaysNeeded : ℤ := p.end_date - p.start_date
    let s₁ := collect_pages oracle totalDaysNeeded
      (requests_needed totalDaysNeeded) 1 s₀
    finalize_collection s₁ now

/-- Records processed from one request outcome (the page's
`len(daily_data)`, 0 for a failed or priceless response). -/
def pageRecords (o : PageOutcome) : ℕ :=
  match o with
  | PageOutcome.ok daily => daily.length
  | _ => 0

/-- Total records processed across requests `1 .. n`. -/
def pageRecordSum (oracle : ℕ → PageOutcome) (n : ℕ) : ℕ :=
  ∑ j in Finset.range n, pageRecords (oracle (j + 1))

end MarketSystem

namespace MarketSystem

/-! ## Theorems: the backfill collector -/

/-- The terminal check in isolation: status, `collection_end`, `last_error`
and the return value as functions of the 95% threshold. -/
lemma finalize_collection_spec (s : RunState) (now : ℤ) :
    ((finalize_collection s now).2.progress.status = Status.completed ↔
      ((finalize_collection s now).2.progress.collected_days : ℚ) ≥
        ((finalize_collection s now).2.progress.total_days : ℚ) * 0.95) ∧
    ((finalize_collection s now).2.progress.status = Status.completed →
      ((finalize_collection s now).2.progress.collection_end).isSome) ∧
    ((finalize_collection s now).2.progress.status ≠ Status.completed →
      (finalize_collection s now).2.progress.status = Status.error ∧
      ((finalize_collection s now).2.progress.last_error).isSome) ∧
    ((finalize_collection s now).1 = true ↔
      (finalize_collection s now).2.progress.status = Status.completed) := by
  by_cases hc : (s.progress.collected_days : ℚ) ≥ (s.progress.total_days : ℚ) * 0.95
  · simp [finalize_collection, hc]
  · simp [finalize_collection, hc]

/-- C4: once the requested page sequence is exhausted (the run was not
short-circuited by an already-`completed` entry), the job's status becomes
`completed` iff `collected_days ≥ 0.95 × total_days`, in which case
`collection_end` is stamped; otherwise it becomes `error` with a
human-readable `last_error`; and the function returns `True` exactly in the
`completed` case. -/
theorem backfill_completion_threshold (p : Progress) (stats : ApiStats)
    (db : List PriceRow) (coin_info : InfoOutcome) (oracle : ℕ → PageOutcome)
    (now : ℤ) (hp : p.status ≠ Status.completed) :
    ((collect_bitcoin_data p stats db coin_info oracle now).2.progress.status
        = Status.completed ↔
      ((collect_bitcoin_data p stats db coin_info oracle now).2.progress.collected_days : ℚ) ≥
        ((collect_bitcoin_data p stats db coin_info oracle now).2.progress.total_days : ℚ)
          * 0.95) ∧
    ((collect_bitcoin_data p stats db coin_info oracle now).2.progress.status
        = Status.completed →
      ((collect_bitcoin_data p stats db coin_info oracle now).2.progress.collection_end).isSome) ∧
    ((collect_bitcoin_data p stats db coin_info oracle now).2.progress.status
        ≠ Status.completed →
      (collect_bitcoin_data p stats db coin_info oracle now).2.progress.status
        = Status.error ∧
      ((collect_bitcoin_data p stats db coin_info oracle now).2.progress.last_error).isSome) ∧
    ((collect_bitcoin_data p stats db coin_info oracle now).1 = true ↔
      (collect_bitcoin_data p stats db coin_info oracle now).2.progress.status
        = Status.completed) := by
  unfold collect_bitcoin_data
  rw [if_neg hp]
  exact finalize_collection_spec _ now

/-- C4 witness: a run over a stored `in_progress` entry. -/
theorem backfill_completion_threshold_witness :
    let job : Progress :=
      ⟨"bitcoin", 4, 0, 0, 4, 0, Status.in_progress, [], none, none, none⟩
    let r := collect_bitcoin_data job ⟨0, 0, 0, 0⟩ [] InfoOutcome.ok
      (fun _ => PageOutcome.apiError) 9
    (r.2.progress.status = Status.completed ↔
      (r.2.progress.collected_days : ℚ) ≥ (r.2.progress.total_days : ℚ) * 0.95) ∧
    (r.2.progress.status = Status.completed → (r.2.progress.collection_end).isSome) ∧
    (r.2.progress.status ≠ Status.completed →
      r.2.progress.status = Status.error ∧ (r.2.progress.last_error).isSome) ∧
    (r.1 = true ↔ r.2.progress.status = Status.completed) :=
  backfill_completion_threshold
    ⟨"bitcoin", 4, 0, 0, 4, 0, Status.in_progress, [], none, none, none⟩
    ⟨0, 0, 0, 0⟩ [] InfoOutcome.ok (fun _ => PageOutcome.apiError) 9 (by decide)

/-- C8: `progress_percentage` is `collected_days / total_days * 100` when
`total_days` is nonzero and `0` when `total_days = 0` — there is no division
by zero. -/
theorem progress_percentage_spec (p : Progress) :
    (p.total_days = 0 → p.progress_percentage = 0) ∧
    (p.total_days ≠ 0 →
      p.progress_percentage = (p.collected_days : ℚ) / (p.total_days : ℚ) * 100) := by
  constructor
  · intro h
    simp [Progress.progress_percentage, h]
  · intro h
    simp [Progress.progress_percentage, h]

/-- C8 witness: the zero-`total_days` job reports 0% without failing. -/
theorem progress_percentage_spec_witness :
    Progress.progress_percentage
      ⟨"bitcoin", 0, 7, 0, 0, 0, Status.pending, [], none, none, none⟩ = 0 :=
  (progress_percentage_spec
    ⟨"bitcoin", 0, 7, 0, 0, 0, Status.pending, [], none, none, none⟩).1 rfl

/-- C10: when the stored progress entry is already `completed`, the
collection entry point returns `True` immediately: no API request is issued
(the counters and the request list are untouched), and the progress entry,
the API counters and the price rows are returned unchanged. -/
theorem completed_job_short_circuits (p : Progress) (stats : ApiStats)
    (db : List PriceRow) (coin_info : InfoOutcome) (oracle : ℕ → PageOutcome)
    (now : ℤ) (hp : p.status = Status.completed) :
    collect_bitcoin_data p stats db coin_info oracle now
      = (true, ⟨p, stats, db, 0, [], 0, 0⟩) := by
  unfold collect_bitcoin_data
  rw [if_pos hp]

/-- C10 witness: a completed bitcoin entry. -/
theorem completed_job_short_circuits_witness :
    collect_bitcoin_data
        ⟨"bitcoin", 100, 100, 0, 100, 100, Status.completed, [], none, none, none⟩
        ⟨5, 4, 1, 0⟩ [] InfoOutcome.ok (fun _ => PageOutcome.apiError) 9
      = (true,
          ⟨⟨"bitcoin", 100, 100, 0, 100, 100, Status.completed, [], none, none, none⟩,
            ⟨5, 4, 1, 0⟩, [], 0, [], 0, 0⟩) :=
  completed_job_short_circuits
    ⟨"bitcoin", 100, 100, 0, 100, 100, Status.completed, [], none, none, none⟩
    ⟨5, 4, 1, 0⟩ [] InfoOutcome.ok (fun _ => PageOutcome.apiError) 9 rfl

/-- One loop iteration adds exactly the page's record count to
`collected_days`, whatever the database already holds. -/
lemma collect_page_collected (oracle : ℕ → PageOutcome) (tdn : ℤ) (i : ℕ)
    (s : RunState) :
    (collect_page oracle tdn i s).progress.collected_days
      = s.progress.collected_days + pageRecords (oracle i) := by
  unfold collect_page pageRecords
  cases h : oracle i with
  | ok daily =>
    by_cases hd : daily.isEmpty
    · have : daily = [] := List.isEmpty_iff.mp hd
      subst this
      simp [h]
    · simp [h, hd]
  | noPrices => simp [h]
  | rateLimited => simp [h]
  | apiError => simp [h]

/-- The request loop adds the record counts of all its pages. -/
lemma collect_pages_collected (oracle : ℕ → PageOutcome) (tdn : ℤ) :
    ∀ (r i : ℕ) (s : RunState),
    (collect_pages oracle tdn r i s).progress.collected_days
      = s.progress.collected_days + ∑ j in Finset.range r, pageRecords (oracle (i + j))
  | 0, i, s => by simp [collect_pages]
  | Nat.succ r, i, s => by
    rw [collect_pages]
    rw [collect_pages_collected oracle tdn r (i + 1) (collect_page oracle tdn i s)]
    rw [collect_page_collected]
    rw [Finset.sum_range_succ']
    have hidx : ∑ j in Finset.range r, pageRecords (oracle (i + (j + 1)))
        = ∑ j in Finset.range r, pageRecords (oracle (i + 1 + j)) :=
      Finset.sum_congr rfl fun j _ => by rw [show i + (j + 1) = i + 1 + j by omega]
    rw [hidx]
    simp only [Nat.add_zero]
    omega

/-- The terminal check does not change `collected_days`. -/
lemma finalize_collection_collected (s : RunState) (now : ℤ) :
    (finalize_collection s now).2.progress.collected_days
      = s.progress.collected_days := by
  by_cases hc : (s.progress.collected_days : ℚ) ≥ (s.progress.total_days : ℚ) * 0.95
  · simp [finalize_collection, hc]
  · simp [finalize_collection, hc]

/-- The record list returned for a page of the concrete overlap scenario:
five records, two of which carry the same date 3 (pages fetch
most-recent-N-days ranges, so re-fetched dates recur). -/
def overlapPage : List DailyRecord :=
  [⟨0, 1, 1, 1, 1, none, none, none, none, none, none, none⟩,
   ⟨1, 1, 1, 1, 1, none, none, none, none, none, none, none⟩,
   ⟨2, 1, 1, 1, 1, none, none, none, none, none, none, none⟩,
   ⟨3, 1, 1, 1, 1, none, none, none, none, none, none, none⟩,
   ⟨3, 2, 2, 2, 2, none, none, none, none, none, none, none⟩]

/-- Oracle of the overlap scenario: the single requested page returns
`overlapPage`. -/
def overlapOracle : ℕ → PageOutcome :=
  fun i => if i = 1 then PageOutcome.ok overlapPage else PageOutcome.apiError

/-- The 4-day job of the overlap scenario. -/
def overlapJob : Progress :=
  ⟨"bitcoin", 4, 0, 0, 4, 0, Status.in_progress, [], none, none, none⟩

/-- C9: `collected_days` grows by the length of every processed page,
with no regard to how many of the page's records merely replaced existing
dates; consequently it is not bounded by `total_days` and
`progress_percentage` exceeds 100 in the concrete overlap scenario, where a
4-day job processes one 5-record page whose records cover only 4 distinct
dates (the final table has 4 rows). -/
theorem collected_days_ignores_overlap :
    (∀ (p : Progress) (stats : ApiStats) (db : List PriceRow)
       (coin_info : InfoOutcome) (oracle : ℕ → PageOutcome) (now : ℤ),
      p.status ≠ Status.completed →
      (collect_bitcoin_data p stats db coin_info oracle now).2.progress.collected_days
        = p.collected_days
          + pageRecordSum oracle (requests_needed (p.end_date - p.start_date))) ∧
    ((collect_bitcoin_data overlapJob ⟨0, 0, 0, 0⟩ [] InfoOutcome.ok overlapOracle 9).2.progress.collected_days
        = 5 ∧
     (collect_bitcoin_data overlapJob ⟨0, 0, 0, 0⟩ [] InfoOutcome.ok overlapOracle 9).2.progress.total_days
        = 4 ∧
     (collect_bitcoin_data overlapJob ⟨0, 0, 0, 0⟩ [] InfoOutcome.ok overlapOracle 9).2.progress.progress_percentage
        > 100 ∧
     (collect_bitcoin_data overlapJob ⟨0, 0, 0, 0⟩ [] InfoOutcome.ok overlapOracle 9).2.db.length
        = 4) := by
  constructor
  · intro p stats db coin_info oracle now hp
    unfold collect_bitcoin_data
    rw [if_neg hp]
    have hprog : ∀ s₀ : RunState, s₀.progress = p →
        (finalize_collection
          (collect_pages oracle (p.end_date - p.start_date)
            (requests_needed (p.end_date - p.start_date)) 1 s₀) 9).2.progress.collected_days
        = p.collected_days
          + pageRecordSum oracle (requests_needed (p.end_date - p.start_date)) := by
      intro s₀ h₀
      rw [finalize_collection_collected, collect_pages_collected, h₀, pageRecordSum]
      congr 1
      exact Finset.sum_congr rfl fun j _ => by rw [Nat.add_comm 1 j]
    cases coin_info with
    | ok =>
      rw [finalize_collection_collected, collect_pages_collected]
      rw [pageRecordSum]
      congr 1
      exact Finset.sum_congr rfl fun j _ => by rw [Nat.add_comm 1 j]
    | rateLimited =>
      rw [finalize_collection_collected, collect_pages_collected]
      rw [pageRecordSum]
      congr 1
      exact Finset.sum_congr rfl fun j _ => by rw [Nat.add_comm 1 j]
    | apiError =>
      rw [finalize_collection_collected, collect_pages_collected]
      rw [pageRecordSum]
      congr 1
      exact Finset.sum_congr rfl fun j _ => by rw [Nat.add_comm 1 j]
  · have hreq : requests_needed ((4 : ℤ) - 0) = 1 := by decide
    have hst : Status.in_progress ≠ Status.completed := by decide
    norm_num [collect_bitcoin_data, overlapJob, hreq, hst, collect_pages, collect_page,
      overlapOracle, overlapPage, save_daily_data, upsert_daily_row, rowKeyed,
      finalize_collection, Progress.progress_percentage]

/-- C9 witness: the additivity fact applied to the overlap scenario. -/
theorem collected_days_ignores_overlap_witness :
    (collect_bitcoin_data overlapJob ⟨0, 0, 0, 0⟩ [] InfoOutcome.ok overlapOracle 9).2.progress.collected_days
      = overlapJob.collected_days
        + pageRecordSum overlapOracle
            (requests_needed (overlapJob.end_date - overlapJob.start_date)) :=
  collected_days_ignores_overlap.1 overlapJob ⟨0, 0, 0, 0⟩ [] InfoOutcome.ok
    overlapOracle 9 (by decide)

/-- The terminal check touches only `status`, `collection_end` and
`last_error`. -/
lemma finalize_collection_frame (s : RunState) (now : ℤ) :
    (finalize_collection s now).2.stats = s.stats ∧
    (finalize_collection s now).2.db = s.db ∧
    (finalize_collection s now).2.sleepMs = s.sleepMs ∧
    (finalize_collection s now).2.market_chart_days = s.market_chart_days ∧
    (finalize_collection s now).2.progress.errors = s.progress.errors ∧
    (finalize_collection s now).2.progress.total_days = s.progress.total_days := by
  by_cases hc : (s.progress.collected_days : ℚ) ≥ (s.progress.total_days : ℚ) * 0.95
  · simp [finalize_collection, hc]
  · simp [finalize_collection, hc]

/-- The run returns `True` exactly when the 95% threshold holds. -/
lemma finalize_collection_true_iff (s : RunState) (now : ℤ) :
    (finalize_collection s now).1 = true ↔
      ((finalize_collection s now).2.progress.collected_days : ℚ) ≥
        ((finalize_collection s now).2.progress.total_days : ℚ) * 0.95 :=
  ((finalize_collection_spec s now).2.2.2).trans (finalize_collection_spec s now).1

/-- A loop iteration whose request succeeds with a nonempty record list. -/
lemma collect_page_ok (oracle : ℕ → PageOutcome) (tdn : ℤ) (i : ℕ)
    (s : RunState) (daily : List DailyRecord)
    (h : oracle i = PageOutcome.ok daily) (hd : daily.isEmpty = false) :
    collect_page oracle tdn i s = { s with
      sleepMs := s.sleepMs + 100 + 2000
      stats := { s.stats with
        total_requests := s.stats.total_requests + 1
        successful_requests := s.stats.successful_requests + 1 }
      market_chart_days := s.market_chart_days ++ [min 365 (tdn - (s.total_collected : ℤ))]
      db := (save_daily_data "bitcoin" daily s.db).2
      total_collected := s.total_collected + daily.length
      progress := { s.progress with
        collected_days := s.progress.collected_days + daily.length } } := by
  unfold collect_page
  rw [h]
  simp [hd, save_daily_data]

/-- A loop iteration whose request is rate-limited: the cooldown is slept,
the hit is counted, one error is recorded, and the loop moves on. -/
lemma collect_page_rate_limited (oracle : ℕ → PageOutcome) (tdn : ℤ) (i : ℕ)
    (s : RunState) (h : oracle i = PageOutcome.rateLimited) :
    collect_page oracle tdn i s = { s with
      sleepMs := s.sleepMs + 100 + 60000 + 2000
      stats := { s.stats with
        total_requests := s.stats.total_requests + 1
        failed_requests := s.stats.failed_requests + 1
        rate_limit_hits := s.stats.rate_limit_hits + 1 }
      market_chart_days := s.market_chart_days ++ [min 365 (tdn - (s.total_collected : ℤ))]
      progress := { s.progress with
        errors := s.progress.errors ++ [fetch_error_msg i]
        last_error := some (fetch_error_msg i) } } := by
  unfold collect_page
  rw [h]

/-- The 800-day job of the rate-limit scenario (3 pages needed). -/
def rateLimitJob : Progress :=
  ⟨"bitcoin", 800, 0, 0, 800, 0, Status.in_progress, [], none, none, none⟩

/-- The single record returned for page `i` of the rate-limit scenario. -/
def rlRec (i : ℕ) : DailyRecord :=
  ⟨(i : ℤ), 1, 1, 1, 1, none, none, none, none, none, none, none⟩

/-- Oracle of the rate-limit scenario: page 2 is rate-limited, every other
request succeeds with one record. -/
def rateLimitOracle : ℕ → PageOutcome :=
  fun i =>
    if i = 2 then PageOutcome.rateLimited
    else PageOutcome.ok [rlRec i]

/-- C5 counterexample: in a 3-page job whose page 2 is rate-limited while
all other requests succeed, the code does NOT retry page 2 — exactly 3
market-chart requests are issued — the `errors` list grows by one, and the
job ends in `error` with a `False` return, contradicting the claimed
retry, unchanged `errors` length and `completed` status. -/
theorem rate_limit_page2_scenario_counterexample :
    (collect_bitcoin_data rateLimitJob ⟨0, 0, 0, 0⟩ [] InfoOutcome.ok rateLimitOracle 9).2.stats.rate_limit_hits
      = 1 ∧
    (collect_bitcoin_data rateLimitJob ⟨0, 0, 0, 0⟩ [] InfoOutcome.ok rateLimitOracle 9).2.market_chart_days.length
      = 3 ∧
    (collect_bitcoin_data rateLimitJob ⟨0, 0, 0, 0⟩ [] InfoOutcome.ok rateLimitOracle 9).2.progress.errors.length
      = 1 ∧
    (collect_bitcoin_data rateLimitJob ⟨0, 0, 0, 0⟩ [] InfoOutcome.ok rateLimitOracle 9).2.progress.status
      = Status.error ∧
    (collect_bitcoin_data rateLimitJob ⟨0, 0, 0, 0⟩ [] InfoOutcome.ok rateLimitOracle 9).1
      = false := by
  have h1 : rateLimitOracle 1 = PageOutcome.ok [rlRec 1] := rfl
  have h2 : rateLimitOracle 2 = PageOutcome.rateLimited := rfl
  have h3 : rateLimitOracle 3 = PageOutcome.ok [rlRec 3] := rfl
  have hl : ([rlRec 1]).isEmpty = false := rfl
  have hl3 : ([rlRec 3]).isEmpty = false := rfl
  have hst : ¬(rateLimitJob.status = Status.completed) := by decide
  have hreq : requests_needed (rateLimitJob.end_date - rateLimitJob.start_date) = 3 := by
    decide
  unfold collect_bitcoin_data
  rw [if_neg hst]
  simp only [hreq]
  rw [show (3 : ℕ) = Nat.succ 2 from rfl]
  rw [collect_pages]
  rw [show (2 : ℕ) = Nat.succ 1 from rfl]
  rw [collect_pages]
  rw [show (1 : ℕ) = Nat.succ 0 from rfl]
  rw [collect_pages, collect_pages]
  rw [collect_page_ok rateLimitOracle _ 1 _ [rlRec 1] h1 hl]
  rw [collect_page_rate_limited rateLimitOracle _ 2 _ h2]
  rw [collect_page_ok rateLimitOracle _ 3 _ [rlRec 3] h3 hl3]
  have hq : ¬(((rateLimitJob.collected_days + [rlRec 1].length + [rlRec 3].length : ℕ) : ℚ)
      ≥ ((rateLimitJob.total_days : ℕ) : ℚ) * 0.95) := by
    norm_num [rateLimitJob]
  refine ⟨?_, ?_, ?_, ?_, ?_⟩
  · rw [(finalize_collection_frame _ _).1]
  · rw [(finalize_collection_frame _ _).2.2.2.1]
    simp
  · rw [(finalize_collection_frame _ _).2.2.2.2.1]
    simp [rateLimitJob]
  · rw [finalize_collection]
    rw [if_neg (by norm_num [rateLimitJob] : ¬(((((rateLimitJob.collected_days + [rlRec 1].length) + [rlRec 3].length : ℕ)) : ℚ) ≥ ((rateLimitJob.total_days : ℕ) : ℚ) * 0.95))]
  · rw [finalize_collection]
    rw [if_neg (by norm_num [rateLimitJob] : ¬(((((rateLimitJob.collected_days + [rlRec 1].length) + [rlRec 3].length : ℕ)) : ℚ) ≥ ((rateLimitJob.total_days : ℕ) : ℚ) * 0.95))]

/-- Three loop iterations starting at request 1, unfolded. -/
lemma collect_pages_three (oracle : ℕ → PageOutcome) (tdn : ℤ) (s : RunState) :
    collect_pages oracle tdn 3 1 s
      = collect_page oracle tdn 3
          (collect_page oracle tdn 2 (collect_page oracle tdn 1 s)) := rfl

/-- Sleep cost of a successful nonempty page: 100 ms delay + 2 s pause. -/
lemma collect_page_sleep_ok (oracle : ℕ → PageOutcome) (tdn : ℤ) (i : ℕ)
    (s : RunState) (daily : List DailyRecord)
    (h : oracle i = PageOutcome.ok daily) (hd : daily.isEmpty = false) :
    (collect_page oracle tdn i s).sleepMs = s.sleepMs + 100 + 2000 := by
  rw [collect_page_ok oracle tdn i s daily h hd]

/-- Sleep cost of a rate-limited page: delay + 60 s cooldown + pause. -/
lemma collect_page_sleep_rate_limited (oracle : ℕ → PageOutcome) (tdn : ℤ)
    (i : ℕ) (s : RunState) (h : oracle i = PageOutcome.rateLimited) :
    (collect_page oracle tdn i s).sleepMs = s.sleepMs + 100 + 60000 + 2000 := by
  rw [collect_page_rate_limited oracle tdn i s h]

/-- Counter effect of a successful nonempty page. -/
lemma collect_page_stats_ok (oracle : ℕ → PageOutcome) (tdn : ℤ) (i : ℕ)
    (s : RunState) (daily : List DailyRecord)
    (h : oracle i = PageOutcome.ok daily) (hd : daily.isEmpty = false) :
    (collect_page oracle tdn i s).stats
      = { s.stats with
          total_requests := s.stats.total_requests + 1
          successful_requests := s.stats.successful_requests + 1 } := by
  rw [collect_page_ok oracle tdn i s daily h hd]

/-- Counter effect of a rate-limited page: the hit is counted. -/
lemma collect_page_stats_rate_limited (oracle : ℕ → PageOutcome) (tdn : ℤ)
    (i : ℕ) (s : RunState) (h : oracle i = PageOutcome.rateLimited) :
    (collect_page oracle tdn i s).stats
      = { s.stats with
          total_requests := s.stats.total_requests + 1
          failed_requests := s.stats.failed_requests + 1
          rate_limit_hits := s.stats.rate_limit_hits + 1 } := by
  rw [collect_page_rate_limited oracle tdn i s h]

/-- Every loop iteration issues exactly one market-chart request. -/
lemma collect_page_requests (oracle : ℕ → PageOutcome) (tdn : ℤ) (i : ℕ)
    (s : RunState) :
    (collect_page oracle tdn i s).market_chart_days.length
      = s.market_chart_days.length + 1 := by
  unfold collect_page
  cases h : oracle i with
  | ok daily =>
    by_cases hd : daily.isEmpty
    · simp [hd]
    · simp [hd]
  | noPrices => simp
  | rateLimited => simp
  | apiError => simp

/-- A successful nonempty page leaves `errors` untouched. -/
lemma collect_page_errors_ok (oracle : ℕ → PageOutcome) (tdn : ℤ) (i : ℕ)
    (s : RunState) (daily : List DailyRecord)
    (h : oracle i = PageOutcome.ok daily) (hd : daily.isEmpty = false) :
    (collect_page oracle tdn i s).progress.errors = s.progress.errors := by
  rw [collect_page_ok oracle tdn i s daily h hd]

/-- A rate-limited page appends exactly one failure message to `errors`. -/
lemma collect_page_errors_rate_limited (oracle : ℕ → PageOutcome) (tdn : ℤ)
    (i : ℕ) (s : RunState) (h : oracle i = PageOutcome.rateLimited) :
    (collect_page oracle tdn i s).progress.errors
      = s.progress.errors ++ [fetch_error_msg i] := by
  rw [collect_page_rate_limited oracle tdn i s h]

/-- Rate-limit scenario, counters: `rate_limit_hits` grows by exactly 1. -/
lemma rl3_rate_limit_hits
    (p : Progress) (stats : ApiStats) (db : List PriceRow) (now : ℤ)
    (l1 l3 : List DailyRecord) (oracle : ℕ → PageOutcome)
    (hp : p.status ≠ Status.completed)
    (hreq : requests_needed (p.end_date - p.start_date) = 3)
    (h1 : oracle 1 = PageOutcome.ok l1) (h2 : oracle 2 = PageOutcome.rateLimited)
    (h3 : oracle 3 = PageOutcome.ok l3)
    (hl1 : l1.isEmpty = false) (hl3 : l3.isEmpty = false) :
    (collect_bitcoin_data p stats db InfoOutcome.ok oracle now).2.stats.rate_limit_hits
      = stats.rate_limit_hits + 1 := by
  unfold collect_bitcoin_data
  rw [if_neg hp]
  simp only [hreq]
  rw [collect_pages_three]
  rw [(finalize_collection_frame _ _).1]
  rw [collect_page_stats_ok oracle _ 3 _ l3 h3 hl3]
  rw [collect_page_stats_rate_limited oracle _ 2 _ h2]
  rw [collect_page_stats_ok oracle _ 1 _ l1 h1 hl1]

/-- Rate-limit scenario, sleeps: 100 ms before each of the four requests,
60 s of cooldown after the rate-limited one, 2 s after each page. -/
lemma rl3_sleep
    (p : Progress) (stats : ApiStats) (db : List PriceRow) (now : ℤ)
    (l1 l3 : List DailyRecord) (oracle : ℕ → PageOutcome)
    (hp : p.status ≠ Status.completed)
    (hreq : requests_needed (p.end_date - p.start_date) = 3)
    (h1 : oracle 1 = PageOutcome.ok l1) (h2 : oracle 2 = PageOutcome.rateLimited)
    (h3 : oracle 3 = PageOutcome.ok l3)
    (hl1 : l1.isEmpty = false) (hl3 : l3.isEmpty = false) :
    60000 ≤ (collect_bitcoin_data p stats db InfoOutcome.ok oracle now).2.sleepMs := by
  unfold collect_bitcoin_data
  rw [if_neg hp]
  simp only [hreq]
  rw [collect_pages_three]
  rw [(finalize_collection_frame _ _).2.2.1]
  rw [collect_page_sleep_ok oracle _ 3 _ l3 h3 hl3]
  rw [collect_page_sleep_rate_limited oracle _ 2 _ h2]
  rw [collect_page_sleep_ok oracle _ 1 _ l1 h1 hl1]
  omega

/-- Rate-limit scenario, requests: exactly three market-chart requests are
issued — the rate-limited page is not re-issued. -/
lemma rl3_requests
    (p : Progress) (stats : ApiStats) (db : List PriceRow) (now : ℤ)
    (l1 l3 : List DailyRecord) (oracle : ℕ → PageOutcome)
    (hp : p.status ≠ Status.completed)
    (hreq : requests_needed (p.end_date - p.start_date) = 3)
    (h1 : oracle 1 = PageOutcome.ok l1) (h2 : oracle 2 = PageOutcome.rateLimited)
    (h3 : oracle 3 = PageOutcome.ok l3)
    (hl1 : l1.isEmpty = false) (hl3 : l3.isEmpty = false) :
    (collect_bitcoin_data p stats db InfoOutcome.ok oracle now).2.market_chart_days.length
      = 3 := by
  unfold collect_bitcoin_data
  rw [if_neg hp]
  simp only [hreq]
  rw [collect_pages_three]
  rw [(finalize_collection_frame _ _).2.2.2.1]
  rw [collect_page_requests, collect_page_requests, collect_page_requests]
  rfl

/-- Rate-limit scenario, errors: starting from an empty list, exactly the
page-2 failure message is recorded. -/
lemma rl3_errors
    (p : Progress) (stats : ApiStats) (db : List PriceRow) (now : ℤ)
    (l1 l3 : List DailyRecord) (oracle : ℕ → PageOutcome)
    (hp : p.status ≠ Status.completed) (he : p.errors = [])
    (hreq : requests_needed (p.end_date - p.start_date) = 3)
    (h1 : oracle 1 = PageOutcome.ok l1) (h2 : oracle 2 = PageOutcome.rateLimited)
    (h3 : oracle 3 = PageOutcome.ok l3)
    (hl1 : l1.isEmpty = false) (hl3 : l3.isEmpty = false) :
    (collect_bitcoin_data p stats db InfoOutcome.ok oracle now).2.progress.errors
      = [fetch_error_msg 2] := by
  unfold collect_bitcoin_data
  rw [if_neg hp]
  simp only [hreq]
  rw [collect_pages_three]
  rw [(finalize_collection_frame _ _).2.2.2.2.1]
  rw [collect_page_errors_ok oracle _ 3 _ l3 h3 hl3]
  rw [collect_page_errors_rate_limited oracle _ 2 _ h2]
  rw [collect_page_errors_ok oracle _ 1 _ l1 h1 hl1]
  show p.errors ++ [fetch_error_msg 2] = [fetch_error_msg 2]
  rw [he]
  rfl

/-- Rate-limit scenario, data: every record of pages 1 and 3 is counted. -/
lemma rl3_collected
    (p : Progress) (stats : ApiStats) (db : List PriceRow) (now : ℤ)
    (l1 l3 : List DailyRecord) (oracle : ℕ → PageOutcome)
    (hp : p.status ≠ Status.completed)
    (hreq : requests_needed (p.end_date - p.start_date) = 3)
    (h1 : oracle 1 = PageOutcome.ok l1) (h2 : oracle 2 = PageOutcome.rateLimited)
    (h3 : oracle 3 = PageOutcome.ok l3)
    (hl1 : l1.isEmpty = false) (hl3 : l3.isEmpty = false) :
    (collect_bitcoin_data p stats db InfoOutcome.ok oracle now).2.progress.collected_days
      = p.collected_days + l1.length + l3.length := by
  unfold collect_bitcoin_data
  rw [if_neg hp]
  simp only [hreq]
  rw [collect_pages_three]
  rw [finalize_collection_collected]
  rw [collect_page_collected, collect_page_collected, collect_page_collected]
  rw [h1, h2, h3]
  rfl

/-- Rate-limit scenario, outcome: the run reports success exactly when the
95% threshold is still reached. -/
lemma rl3_return_iff
    (p : Progress) (stats : ApiStats) (db : List PriceRow) (now : ℤ)
    (oracle : ℕ → PageOutcome)
    (hp : p.status ≠ Status.completed) :
    (collect_bitcoin_data p stats db InfoOutcome.ok oracle now).1 = true ↔
      ((collect_bitcoin_data p stats db InfoOutcome.ok oracle now).2.progress.collected_days : ℚ) ≥
        ((collect_bitcoin_data p stats db InfoOutcome.ok oracle now).2.progress.total_days : ℚ)
          * 0.95 := by
  unfold collect_bitcoin_data
  rw [if_neg hp]
  exact finalize_collection_true_iff _ _

/-- C5 (amended): a rate-limited page 2 of 3 increments `rate_limit_hits`
by 1 and sleeps the 60 s cooldown, but the page is NOT retried — exactly 3
market-chart requests are issued — one error is appended to `errors`, every
record of pages 1 and 3 still lands in `collected_days`, and the job
completes only if that total reaches the 95% threshold. -/
theorem rate_limited_page_not_retried
    (p : Progress) (stats : ApiStats) (db : List PriceRow) (now : ℤ)
    (l1 l3 : List DailyRecord) (oracle : ℕ → PageOutcome)
    (hp : p.status ≠ Status.completed) (he : p.errors = [])
    (hreq : requests_needed (p.end_date - p.start_date) = 3)
    (h1 : oracle 1 = PageOutcome.ok l1) (h2 : oracle 2 = PageOutcome.rateLimited)
    (h3 : oracle 3 = PageOutcome.ok l3)
    (hl1 : l1.isEmpty = false) (hl3 : l3.isEmpty = false) :
    (collect_bitcoin_data p stats db InfoOutcome.ok oracle now).2.stats.rate_limit_hits
      = stats.rate_limit_hits + 1 ∧
    60000 ≤ (collect_bitcoin_data p stats db InfoOutcome.ok oracle now).2.sleepMs ∧
    (collect_bitcoin_data p stats db InfoOutcome.ok oracle now).2.market_chart_days.length
      = 3 ∧
    (collect_bitcoin_data p stats db InfoOutcome.ok oracle now).2.progress.errors
      = [fetch_error_msg 2] ∧
    (collect_bitcoin_data p stats db InfoOutcome.ok oracle now).2.progress.collected_days
      = p.collected_days + l1.length + l3.length ∧
    ((collect_bitcoin_data p stats db InfoOutcome.ok oracle now).1 = true ↔
      ((collect_bitcoin_data p stats db InfoOutcome.ok oracle now).2.progress.collected_days : ℚ) ≥
        ((collect_bitcoin_data p stats db InfoOutcome.ok oracle now).2.progress.total_days : ℚ)
          * 0.95) :=
  ⟨rl3_rate_limit_hits p stats db now l1 l3 oracle hp hreq h1 h2 h3 hl1 hl3,
   rl3_sleep p stats db now l1 l3 oracle hp hreq h1 h2 h3 hl1 hl3,
   rl3_requests p stats db now l1 l3 oracle hp hreq h1 h2 h3 hl1 hl3,
   rl3_errors p stats db now l1 l3 oracle hp he hreq h1 h2 h3 hl1 hl3,
   rl3_collected p stats db now l1 l3 oracle hp hreq h1 h2 h3 hl1 hl3,
   rl3_return_iff p stats db now oracle hp⟩

/-- C5 witness: the amended description holds of the concrete 800-day,
3-page scenario with one record per successful page. -/
theorem rate_limited_page_not_retried_witness :
    (collect_bitcoin_data rateLimitJob ⟨0, 0, 0, 0⟩ [] InfoOutcome.ok rateLimitOracle 9).2.stats.rate_limit_hits
      = (ApiStats.mk 0 0 0 0).rate_limit_hits + 1 ∧
    60000 ≤ (collect_bitcoin_data rateLimitJob ⟨0, 0, 0, 0⟩ [] InfoOutcome.ok rateLimitOracle 9).2.sleepMs ∧
    (collect_bitcoin_data rateLimitJob ⟨0, 0, 0, 0⟩ [] InfoOutcome.ok rateLimitOracle 9).2.market_chart_days.length
      = 3 ∧
    (collect_bitcoin_data rateLimitJob ⟨0, 0, 0, 0⟩ [] InfoOutcome.ok rateLimitOracle 9).2.progress.errors
      = [fetch_error_msg 2] ∧
    (collect_bitcoin_data rateLimitJob ⟨0, 0, 0, 0⟩ [] InfoOutcome.ok rateLimitOracle 9).2.progress.collected_days
      = rateLimitJob.collected_days + [rlRec 1].length + [rlRec 3].length ∧
    ((collect_bitcoin_data rateLimitJob ⟨0, 0, 0, 0⟩ [] InfoOutcome.ok rateLimitOracle 9).1 = true ↔
      ((collect_bitcoin_data rateLimitJob ⟨0, 0, 0, 0⟩ [] InfoOutcome.ok rateLimitOracle 9).2.progress.collected_days : ℚ) ≥
        ((collect_bitcoin_data rateLimitJob ⟨0, 0, 0, 0⟩ [] InfoOutcome.ok rateLimitOracle 9).2.progress.total_days : ℚ)
          * 0.95) :=
  rate_limited_page_not_retried rateLimitJob ⟨0, 0, 0, 0⟩ [] 9 [rlRec 1] [rlRec 3]
    rateLimitOracle (by decide) rfl (by decide) rfl rfl rfl rfl rfl

/-- Each zero-floored gain term is nonnegative. -/
lemma gainAt_nonneg (prices : List ℚ) (i : ℕ) : 0 ≤ gainAt prices i := by
  unfold gainAt
  split <;> [linarith; exact le_refl 0]

/-- Each zero-floored loss term is nonnegative. -/
lemma lossAt_nonneg (prices : List ℚ) (i : ℕ) : 0 ≤ lossAt prices i := by
  unfold lossAt
  split <;> [linarith; exact le_refl 0]

/-- The rolling average gain is nonnegative. -/
lemma avgGain_nonneg (prices : List ℚ) (i : ℕ) : 0 ≤ avgGain prices i := by
  unfold avgGain
  apply div_nonneg _ (by norm_num)
  exact Finset.sum_nonneg fun j _ => gainAt_nonneg prices (i - j)

/-- The rolling average loss is nonnegative. -/
lemma avgLoss_nonneg (prices : List ℚ) (i : ℕ) : 0 ≤ avgLoss prices i := by
  unfold avgLoss
  apply div_nonneg _ (by norm_num)
  exact Finset.sum_nonneg fun j _ => lossAt_nonneg prices (i - j)

/-- C6: every defined RSI(14) value lies in `[0, 100]`, and where the
14-period average loss is zero the defined value is exactly 100. -/
theorem rsi_in_range_and_saturates (prices : List ℚ) (i : ℕ) (r : ℚ)
    (h : rsiAt prices i = some r) :
    (0 ≤ r ∧ r ≤ 100) ∧ (avgLoss prices i = 0 → r = 100) := by
  unfold rsiAt at h
  by_cases hw : 14 ≤ i ∧ i < prices.length
  · rw [if_pos hw] at h
    by_cases hl : avgLoss prices i = 0
    · by_cases hg : avgGain prices i = 0
      · simp [hl, hg] at h
      · rw [if_pos hl, if_neg hg] at h
        obtain rfl : (100 : ℚ) = r := Option.some.injEq _ _ ▸ h
        exact ⟨⟨by norm_num, le_refl _⟩, fun _ => rfl⟩
    · rw [if_neg hl] at h
      rw [Option.some.injEq] at h
      have hlpos : 0 < avgLoss prices i := lt_of_le_of_ne (avgLoss_nonneg prices i) (Ne.symm hl)
      have hq : 0 ≤ avgGain prices i / avgLoss prices i :=
        div_nonneg (avgGain_nonneg prices i) (le_of_lt hlpos)
      have hden : (1 : ℚ) ≤ 1 + avgGain prices i / avgLoss prices i := by linarith
      have hdpos : (0 : ℚ) < 1 + avgGain prices i / avgLoss prices i := by linarith
      have hfrac_pos : (0 : ℚ) < 100 / (1 + avgGain prices i / avgLoss prices i) :=
        div_pos (by norm_num) hdpos
      have hfrac_le : 100 / (1 + avgGain prices i / avgLoss prices i) ≤ 100 :=
        div_le_self (by norm_num) hden
      refine ⟨⟨?_, ?_⟩, fun hc => absurd hc hl⟩
      · rw [← h]; linarith
      · rw [← h]; linarith
  · simp [hw] at h

/-- C6 witness: a strictly increasing 15-price series has zero average loss
at row 14 and its RSI saturates at 100. -/
theorem rsi_in_range_and_saturates_witness :
    (0 ≤ (100 : ℚ) ∧ (100 : ℚ) ≤ 100) ∧
    (avgLoss [0, 1, 2, 3, 4, 5, 6, 7, 8, 9, 10, 11, 12, 13, 14] 14 = 0 → (100 : ℚ) = 100) :=
  rsi_in_range_and_saturates [0, 1, 2, 3, 4, 5, 6, 7, 8, 9, 10, 11, 12, 13, 14] 14 100
    (by
      simp only [rsiAt, avgLoss, avgGain, lossAt, gainAt, priceDelta, Finset.sum_range_succ]
      norm_num)

/-- Filtering with a predicate and then with its negation leaves nothing. -/
lemma filter_not_filter (p : PriceRow → Bool) (t : List PriceRow) :
    (t.filter fun row => !p row).filter p = [] := by
  induction t with
  | nil => rfl
  | cons hd tl ih =>
    by_cases hp : p hd
    · simp [List.filter, hp, ih]
    · simp [List.filter, hp, ih]

/-- Filtering twice with the same predicate is filtering once. -/
lemma filter_idem (p : PriceRow → Bool) (t : List PriceRow) :
    (t.filter p).filter p = t.filter p := by
  induction t with
  | nil => rfl
  | cons hd tl ih =>
    by_cases hp : p hd
    · simp [List.filter, hp, ih]
    · simp [List.filter, hp, ih]

/-- C7: the daily upsert is keyed by `(coin, date)`, idempotent, and
last-writer-wins: after writing `r1` then `r2` for the same key, the table
holds exactly one row for that key and it carries `r2`'s field values; and
re-writing the same record changes nothing. -/
theorem upsert_daily_idempotent_last_writer_wins
    (t : List PriceRow) (coin : String) (r1 r2 : DailyRecord)
    (hdate : r1.date = r2.date) :
    (upsert_daily_row coin r2 (upsert_daily_row coin r1 t)).filter
        (rowKeyed coin r2.date) = [⟨coin, r2⟩] ∧
    upsert_daily_row coin r2 (upsert_daily_row coin r2 t)
      = upsert_daily_row coin r2 t := by
  constructor
  · unfold upsert_daily_row
    rw [hdate]
    rw [List.filter_append, filter_not_filter]
    simp [List.filter, rowKeyed]
  · unfold upsert_daily_row
    rw [List.filter_append, filter_idem]
    simp [List.filter, rowKeyed]

/-- C7 witness: two writes for day 5, second with a different close price. -/
theorem upsert_daily_idempotent_last_writer_wins_witness :
    (upsert_daily_row "bitcoin"
        ⟨5, 2, 2, 2, 2, none, none, none, none, none, none, none⟩
        (upsert_daily_row "bitcoin"
          ⟨5, 1, 1, 1, 1, none, none, none, none, none, none, none⟩ [])).filter
        (rowKeyed "bitcoin"
          (DailyRecord.date ⟨5, 2, 2, 2, 2, none, none, none, none, none, none, none⟩))
      = [⟨"bitcoin", ⟨5, 2, 2, 2, 2, none, none, none, none, none, none, none⟩⟩] ∧
    upsert_daily_row "bitcoin"
        ⟨5, 2, 2, 2, 2, none, none, none, none, none, none, none⟩
        (upsert_daily_row "bitcoin"
          ⟨5, 2, 2, 2, 2, none, none, none, none, none, none, none⟩ [])
      = upsert_daily_row "bitcoin"
        ⟨5, 2, 2, 2, 2, none, none, none, none, none, none, none⟩ [] :=
  upsert_daily_idempotent_last_writer_wins []
    "bitcoin"
    ⟨5, 1, 1, 1, 1, none, none, none, none, none, none, none⟩
    ⟨5, 2, 2, 2, 2, none, none, none, none, none, none, none⟩
    rfl

end MarketSystem
